import Mathlib

/-!
Shallow embedding of the Code-Drop signaling server (src/server/server.js) and
the client connection negotiator (src/client/src/App.jsx), together with
theorems settling the frozen claims about the room registry, the signaling
relay, the liveness sweep, the client ICE-candidate queue and the retry
backoff schedule.

JS Maps (rooms, userRooms, heartbeats, the socket.io adapter room table) are
embedded as association lists with unique-key set and delete operations;
socket connectivity (io.sockets.sockets) is passed to each handler as the list
of currently connected socket ids; Math.random samples are passed as a stream
of naturals, the i-th entry being floor(random() * 9000), which always lies
below 9000.  Handler side effects (socket.emit, io.to(...).emit) are returned
as an explicit list of messages.
-/

namespace CodeDrop

/-- Lookup in an association list: the model of JS Map.get (returns the value
of the unique binding, or none). -/
def mapGet {α : Type} (m : List (String × α)) (k : String) : Option α :=
  match m with
  | [] => none
  | (k2, v) :: rest => if k2 = k then some v else mapGet rest k

/-- Membership test: the model of JS Map.has. -/
def mapHas {α : Type} (m : List (String × α)) (k : String) : Bool :=
  (mapGet m k).isSome

/-- Insert or replace a binding: the model of JS Map.set. -/
def mapSet {α : Type} (m : List (String × α)) (k : String) (v : α) :
    List (String × α) :=
  match m with
  | [] => [(k, v)]
  | (k2, v2) :: rest =>
    if k2 = k then (k, v) :: rest else (k2, v2) :: mapSet rest k v

/-- Remove every binding of a key: the model of JS Map.delete (on a JS Map a
key has at most one binding, so removing all bindings coincides with it). -/
def mapDelete {α : Type} (m : List (String × α)) (k : String) :
    List (String × α) :=
  m.filter (fun p => p.1 ≠ k)

/-- The keys of an association list are pairwise distinct (always true of a
state built from JS Map operations). -/
def keysNodup {α : Type} (m : List (String × α)) : Prop :=
  (m.map Prod.fst).Nodup

/-- Room record stored in the rooms map: sender socket id, optional receiver
socket id, creation timestamp and last-activity timestamp (epoch ms). -/
structure RoomInfo where
  sender : String
  receiver : Option String
  created : Nat
  lastActivity : Nat
deriving DecidableEq, Repr

/-- A pending setTimeout scheduled by the create-room handler: the captured
room code and the absolute time at which the callback fires.  The source
stores no cancellation handle for it. -/
structure RoomTimer where
  code : String
  fireAt : Nat
deriving DecidableEq, Repr

/-- A message emitted by the server to a client socket (socket.emit or
io.to(target).emit), tagged with the recipient socket id. -/
inductive ServerMsg where
  | errorMsg (dst text : String)
  | roomCreated (dst code : String)
  | roomJoined (dst code : String)
  | receiverJoined (dst receiverId : String)
  | offerMsg (dst sdp senderId : String) (isRestart : Bool)
  | answerMsg (dst sdp : String)
  | iceMsg (dst candidate : String)
  | roomClosed (dst reason : String)
  | peerDisconnected (dst reason userId : String)
deriving DecidableEq, Repr

/-- The mutable server state: the rooms map, the reverse index from socket id
to room code (userRooms), the heartbeat table, the socket.io adapter room
membership table, and the list of scheduled room-timeout timers. -/
structure ServerState where
  rooms : List (String × RoomInfo)
  userRooms : List (String × String)
  heartbeats : List (String × Nat)
  adapterRooms : List (String × List String)
  timers : List RoomTimer
deriving DecidableEq, Repr

/-- The empty server state at process start. -/
def ServerState.init : ServerState :=
  { rooms := [], userRooms := [], heartbeats := [], adapterRooms := [],
    timers := [] }

/-- cleanupRoom (server.js lines 71 to 96): if the code is registered, notify
each still-connected participant with room-closed, delete both participants
from the reverse index and the heartbeat table, and delete the room; if the
code is not registered, do nothing.  conn is the list of connected socket
ids. -/
def cleanupRoom (conn : List String) (st : ServerState)
    (roomCode reason : String) : ServerState × List ServerMsg :=
  match mapGet st.rooms roomCode with
  | none => (st, [])
  | some roomInfo =>
    let senderMsgs :=
      if conn.contains roomInfo.sender then
        [ServerMsg.roomClosed roomInfo.sender reason]
      else []
    let receiverMsgs :=
      match roomInfo.receiver with
      | some r => if conn.contains r then [ServerMsg.roomClosed r reason] else []
      | none => []
    let userRooms1 := mapDelete st.userRooms roomInfo.sender
    let heartbeats1 := mapDelete st.heartbeats roomInfo.sender
    let userRooms2 :=
      match roomInfo.receiver with
      | some r => mapDelete userRooms1 r
      | none => userRooms1
    let heartbeats2 :=
      match roomInfo.receiver with
      | some r => mapDelete heartbeats1 r
      | none => heartbeats1
    ({ st with
        rooms := mapDelete st.rooms roomCode,
        userRooms := userRooms2,
        heartbeats := heartbeats2 },
      senderMsgs ++ receiverMsgs)

/-- The role argument of validateRoom. -/
inductive Role where
  | sender
  | receiver
deriving DecidableEq, Repr

/-- validateRoom (server.js lines 104 to 127): emits an error to the calling
socket and returns none when the room is unknown, when the required role does
not match the caller, or when the caller is in neither role; otherwise returns
the room record. -/
def validateRoom (st : ServerState) (sid roomCode : String)
    (requiredRole : Option Role) : Option RoomInfo × List ServerMsg :=
  match mapGet st.rooms roomCode with
  | none => (none, [ServerMsg.errorMsg sid "Room not found"])
  | some roomInfo =>
    if requiredRole = some Role.sender ∧ roomInfo.sender ≠ sid then
      (none, [ServerMsg.errorMsg sid "Unauthorized: Not the sender"])
    else if requiredRole = some Role.receiver ∧ roomInfo.receiver ≠ some sid then
      (none, [ServerMsg.errorMsg sid "Unauthorized: Not the receiver"])
    else if roomInfo.sender ≠ sid ∧ roomInfo.receiver ≠ some sid then
      (none, [ServerMsg.errorMsg sid "Unauthorized: Not in this room"])
    else
      (some roomInfo, [])

/-- Join a socket into a socket.io adapter room (socket.join): creates the
group if absent; joining a group one is already in is a no-op. -/
def adapterJoin (ar : List (String × List String)) (code sid : String) :
    List (String × List String) :=
  match mapGet ar code with
  | some members =>
    if sid ∈ members then ar else mapSet ar code (members ++ [sid])
  | none => mapSet ar code [sid]

/-- The i-th candidate code of the create-room handler: the decimal string of
1000 plus the i-th sample of the random stream (the source computes
Math.floor(1000 + Math.random() * 9000).toString(), and the sample models
floor(Math.random() * 9000), which lies in 0..8999). -/
def candidateCode (rand : Nat → Nat) (i : Nat) : String :=
  toString (1000 + rand i)

/-- The do-while loop of the create-room handler (server.js lines 165 to 168):
draw the i-th candidate, increment attempts, and repeat while the candidate
collides with a registered code and attempts is still below 10.  remaining is
the number of further iterations the attempts bound still allows (9 minus i),
so at remaining zero the loop exits regardless of collision.  Returns the last
candidate drawn together with the final attempts counter. -/
def genLoop (roomsMap : List (String × RoomInfo)) (rand : Nat → Nat) :
    Nat → Nat → String × Nat
  | remaining, i =>
    let code := candidateCode rand i
    match remaining with
    | 0 => (code, i + 1)
    | r + 1 =>
      if mapHas roomsMap code then genLoop roomsMap rand r (i + 1)
      else (code, i + 1)

/-- The create-room handler (server.js lines 153 to 205): tear down any room
the caller already owns, run the code-generation loop, and either report the
generation failure (attempts at 10) or register the new room, index the
caller, join the adapter group, schedule the 30-minute no-receiver timeout,
and reply room-created. -/
def createRoom (conn : List String) (rand : Nat → Nat) (now : Nat)
    (sid : String) (st : ServerState) : ServerState × List ServerMsg :=
  let cleaned :=
    match mapGet st.userRooms sid with
    | some existing => cleanupRoom conn st existing "new-room-created"
    | none => (st, [])
  let st1 := cleaned.1
  let gen := genLoop st1.rooms rand 9 0
  if gen.2 ≥ 10 then
    (st1, cleaned.2 ++ [ServerMsg.errorMsg sid "Failed to generate unique room code"])
  else
    let roomCode := gen.1
    let roomInfo : RoomInfo :=
      { sender := sid, receiver := none, created := now, lastActivity := now }
    ({ st1 with
        adapterRooms := adapterJoin st1.adapterRooms roomCode sid,
        rooms := mapSet st1.rooms roomCode roomInfo,
        userRooms := mapSet st1.userRooms sid roomCode,
        timers := st1.timers ++ [{ code := roomCode, fireAt := now + 30 * 60 * 1000 }] },
      cleaned.2 ++ [ServerMsg.roomCreated sid roomCode])

/-- The callback of the 30-minute setTimeout scheduled by create-room
(server.js lines 192 to 199): when it fires, if a room is registered under the
captured code and still has no receiver, it is cleaned up with reason
timeout-no-receiver. -/
def roomTimeoutFire (conn : List String) (st : ServerState) (roomCode : String) :
    ServerState × List ServerMsg :=
  match mapGet st.rooms roomCode with
  | some room =>
    if room.receiver = none then cleanupRoom conn st roomCode "timeout-no-receiver"
    else (st, [])
  | none => (st, [])

/-- The join-room handler (server.js lines 207 to 272): validate the code
shape, the room existence, the absence of a receiver and the adapter group
occupancy; then tear down any other room the joiner was in, join the adapter
group, bind the receiver, update activity, index the joiner, and notify both
parties. -/
def joinRoom (conn : List String) (now : Nat) (sid roomCode : String)
    (st : ServerState) : ServerState × List ServerMsg :=
  if roomCode.length ≠ 4 then
    (st, [ServerMsg.errorMsg sid "Invalid room code"])
  else
    match mapGet st.rooms roomCode with
    | none => (st, [ServerMsg.errorMsg sid "Room not found"])
    | some roomInfo =>
      if roomInfo.receiver.isSome then
        (st, [ServerMsg.errorMsg sid "Room is full"])
      else
        let socketRoomSize := ((mapGet st.adapterRooms roomCode).getD []).length
        if socketRoomSize = 0 then
          (st, [ServerMsg.errorMsg sid "Room is no longer active"])
        else if socketRoomSize ≥ 2 then
          (st, [ServerMsg.errorMsg sid "Room is full"])
        else
          let cleaned :=
            match mapGet st.userRooms sid with
            | some existing =>
              if existing ≠ roomCode then
                cleanupRoom conn st existing "user-joined-new-room"
              else (st, [])
            | none => (st, [])
          let st1 := cleaned.1
          let roomInfo1 := { roomInfo with receiver := some sid, lastActivity := now }
          let notifySender :=
            if conn.contains roomInfo.sender then
              [ServerMsg.receiverJoined roomInfo.sender sid]
            else []
          ({ st1 with
              adapterRooms := adapterJoin st1.adapterRooms roomCode sid,
              rooms := mapSet st1.rooms roomCode roomInfo1,
              userRooms := mapSet st1.userRooms sid roomCode },
            cleaned.2 ++ [ServerMsg.roomJoined sid roomCode] ++ notifySender)

/-- Payload of an offer or answer event: optional target and sdp fields (none
models a missing or falsy field) plus the isRestart flag. -/
structure SignalPayload where
  target : Option String
  sdp : Option String
  isRestart : Bool
deriving DecidableEq, Repr

/-- The offer handler (server.js lines 275 to 316): reject payloads missing
target or sdp, look the caller up in the reverse index, validate the room with
required role sender, bump the room activity, and either report a disconnected
target or forward the offer (sdp, senderId, isRestart) to the target. -/
def relayOffer (conn : List String) (now : Nat) (sid : String)
    (p : SignalPayload) (st : ServerState) : ServerState × List ServerMsg :=
  match p.target, p.sdp with
  | some target, some sdp =>
    (match mapGet st.userRooms sid with
    | none => (st, [ServerMsg.errorMsg sid "Not in any room"])
    | some roomCode =>
      match validateRoom st sid roomCode (some Role.sender) with
      | (none, msgs) => (st, msgs)
      | (some roomInfo, _) =>
        let roomInfo1 := { roomInfo with lastActivity := now }
        let st1 := { st with rooms := mapSet st.rooms roomCode roomInfo1 }
        if conn.contains target then
          (st1, [ServerMsg.offerMsg target sdp sid p.isRestart])
        else
          (st1, [ServerMsg.errorMsg sid "Receiver disconnected"]))
  | _, _ => (st, [ServerMsg.errorMsg sid "Invalid offer payload"])

/-- The answer handler (server.js lines 318 to 357): like the offer handler
with required role receiver; forwards only the sdp to the target. -/
def relayAnswer (conn : List String) (now : Nat) (sid : String)
    (p : SignalPayload) (st : ServerState) : ServerState × List ServerMsg :=
  match p.target, p.sdp with
  | some target, some sdp =>
    (match mapGet st.userRooms sid with
    | none => (st, [ServerMsg.errorMsg sid "Not in any room"])
    | some roomCode =>
      match validateRoom st sid roomCode (some Role.receiver) with
      | (none, msgs) => (st, msgs)
      | (some roomInfo, _) =>
        let roomInfo1 := { roomInfo with lastActivity := now }
        let st1 := { st with rooms := mapSet st.rooms roomCode roomInfo1 }
        if conn.contains target then
          (st1, [ServerMsg.answerMsg target sdp])
        else
          (st1, [ServerMsg.errorMsg sid "Sender disconnected"]))
  | _, _ => (st, [ServerMsg.errorMsg sid "Invalid answer payload"])

/-- The disconnect handler (server.js lines 504 to 533): drop the heartbeat
entry, notify the surviving peer if still connected, and clean the room up
entirely. -/
def onDisconnect (conn : List String) (sid : String) (st : ServerState) :
    ServerState × List ServerMsg :=
  let st0 := { st with heartbeats := mapDelete st.heartbeats sid }
  match mapGet st0.userRooms sid with
  | none => (st0, [])
  | some roomCode =>
    match mapGet st0.rooms roomCode with
    | none => (st0, [])
    | some roomInfo =>
      let otherUser :=
        if roomInfo.sender = sid then roomInfo.receiver else some roomInfo.sender
      let notifyMsgs :=
        match otherUser with
        | some o =>
          if conn.contains o then [ServerMsg.peerDisconnected o "peer-left" sid]
          else []
        | none => []
      let cleaned := cleanupRoom conn st0 roomCode "user-disconnected"
      (cleaned.1, notifyMsgs ++ cleaned.2)

/-- The teardown decision of the 5-minute cron sweep (server.js lines 572 to
598) for one room: age above 30 minutes, else inactivity above 5 minutes with
no receiver, else both participants without a live connection; none means the
room is kept. -/
def sweepReason (conn : List String) (now : Nat) (roomInfo : RoomInfo) :
    Option String :=
  if now - roomInfo.created > 30 * 60 * 1000 then some "room-timeout"
  else if now - roomInfo.lastActivity > 5 * 60 * 1000 ∧ roomInfo.receiver = none then
    some "inactive-no-receiver"
  else
    let senderConnected := conn.contains roomInfo.sender
    let receiverConnected :=
      match roomInfo.receiver with
      | some r => conn.contains r
      | none => false
    if !senderConnected && !receiverConnected then some "all-users-disconnected"
    else none

/-- The iteration of the cron sweep over the entries of the rooms map,
cleaning up each room whose sweepReason is set. -/
def sweepGo (conn : List String) (now : Nat) :
    List (String × RoomInfo) → ServerState → List ServerMsg →
    ServerState × List ServerMsg
  | [], st, acc => (st, acc)
  | (code, roomInfo) :: rest, st, acc =>
    match sweepReason conn now roomInfo with
    | some reason =>
      let cleaned := cleanupRoom conn st code reason
      sweepGo conn now rest cleaned.1 (acc ++ cleaned.2)
    | none => sweepGo conn now rest st acc

/-- The 5-minute cron room sweep (server.js lines 564 to 611). -/
def roomSweep (conn : List String) (now : Nat) (st : ServerState) :
    ServerState × List ServerMsg :=
  sweepGo conn now st.rooms st []

/-- Client negotiator state relevant to ICE handling (App.jsx): whether the
peer connection has a remote description with a type, and the queue of ICE
candidates received before that (pendingIceCandidates, in arrival order).
Cand is the opaque candidate payload type. -/
structure NegotiatorState (Cand : Type) where
  remoteDescSet : Bool
  pendingIceCandidates : List Cand
deriving DecidableEq, Repr

/-- One observable interaction of the client with the peer connection while
handling ICE candidates: an addIceCandidate invocation that returned, an
addIceCandidate invocation that threw (the client logs the error and
continues), or the queueing of a candidate. -/
inductive IceEvent (Cand : Type) where
  | added (c : Cand)
  | addFailedLogged (c : Cand)
  | queuedCand (c : Cand)
deriving DecidableEq, Repr

/-- One addIceCandidate call wrapped in try-catch: ok tells whether the
underlying platform call succeeds on that candidate. -/
def addIceAttempt {Cand : Type} (ok : Cand → Bool) (c : Cand) : IceEvent Cand :=
  if ok c then IceEvent.added c else IceEvent.addFailedLogged c

/-- The client ice-candidate socket handler (App.jsx lines 696 to 711): a
falsy candidate or a missing peer connection is ignored; with a remote
description set the candidate is added immediately (failures logged);
otherwise it is appended to the pending queue. -/
def onIceCandidateMsg {Cand : Type} (ok : Cand → Bool) (pcExists : Bool)
    (st : NegotiatorState Cand) (candidate : Option Cand) :
    NegotiatorState Cand × List (IceEvent Cand) :=
  match candidate with
  | none => (st, [])
  | some c =>
    if pcExists then
      if st.remoteDescSet then (st, [addIceAttempt ok c])
      else
        ({ st with pendingIceCandidates := st.pendingIceCandidates ++ [c] },
          [IceEvent.queuedCand c])
    else (st, [])

/-- The per-candidate flush loop run right after setRemoteDescription in the
offer and answer handlers (App.jsx lines 625 to 632 and 679 to 686): each
queued candidate is passed to addIceCandidate inside its own try-catch, so a
failure is logged and the loop continues with the rest. -/
def flushPending {Cand : Type} (ok : Cand → Bool) :
    List Cand → List (IceEvent Cand)
  | [] => []
  | c :: rest => addIceAttempt ok c :: flushPending ok rest

/-- Application of a remote description by the offer or answer handler
(App.jsx lines 621 to 633 and 674 to 687): the remote description becomes
set, the whole pending queue is flushed in order, and the queue is reset to
empty. -/
def applyRemoteDescription {Cand : Type} (ok : Cand → Bool)
    (st : NegotiatorState Cand) : NegotiatorState Cand × List (IceEvent Cand) :=
  ({ remoteDescSet := true, pendingIceCandidates := [] },
    flushPending ok st.pendingIceCandidates)

/-- The candidates an event trace passed to addIceCandidate (both outcomes
are invocations; queueing is not an invocation). -/
def attemptedCands {Cand : Type} : List (IceEvent Cand) → List Cand
  | [] => []
  | IceEvent.added c :: rest => c :: attemptedCands rest
  | IceEvent.addFailedLogged c :: rest => c :: attemptedCands rest
  | IceEvent.queuedCand _ :: rest => attemptedCands rest

/-- getRetryDelay (App.jsx line 81): exponential backoff capped at 30000
milliseconds. -/
def getRetryDelay (attempt : Nat) : Nat :=
  min (1000 * 2 ^ attempt) 30000

/-- maxRetries (App.jsx line 70). -/
def maxRetries : Nat := 3

/-- What the failed branch of pc.onconnectionstatechange decides (App.jsx
lines 387 to 421). -/
inductive FailureAction where
  | scheduleRetry (newCount delay : Nat)
  | terminalFailure
deriving DecidableEq, Repr

/-- The failed branch of pc.onconnectionstatechange (App.jsx lines 387 to
421): below maxRetries the retry counter is incremented and a restart is
scheduled after getRetryDelay of the counter minus one; otherwise
handleConnectionFailure runs, which surfaces the terminal failure status and
schedules no further retry of this negotiation. -/
def onPeerConnectionFailed (retryCount : Nat) : FailureAction :=
  if retryCount < maxRetries then
    FailureAction.scheduleRetry (retryCount + 1) (getRetryDelay (retryCount + 1 - 1))
  else FailureAction.terminalFailure

/-! Concrete states used by counterexample and failing-input theorems. -/

/-- A registry holding one live room with code 1000, used by the create-room
counterexample. -/
def exC2State : ServerState :=
  { rooms := [("1000", { sender := "Z", receiver := none, created := 0, lastActivity := 0 })],
    userRooms := [("Z", "1000")],
    heartbeats := [],
    adapterRooms := [("1000", ["Z"])],
    timers := [] }

/-- A random stream whose first nine samples give the colliding candidate 1000
and whose tenth sample gives the fresh candidate 1001. -/
def exC2Rand : Nat → Nat := fun i => if i < 9 then 0 else 1

/-- A registry with one fully paired room, sender A and receiver B, used by
the relay counterexample. -/
def exC1State : ServerState :=
  { rooms := [("1234", { sender := "A", receiver := some "B", created := 0, lastActivity := 0 })],
    userRooms := [("A", "1234"), ("B", "1234")],
    heartbeats := [],
    adapterRooms := [("1234", ["A", "B"])],
    timers := [] }

/-- A random stream that always samples zero, so every generated code is
1000. -/
def exC6Rand : Nat → Nat := fun _ => 0

/-- Stale-timer trace, step 1: client A creates a room at time 0; the code is
1000 and a timer firing at 1800000 is scheduled. -/
def exC6St1 : ServerState := (createRoom ["A"] exC6Rand 0 "A" ServerState.init).1

/-- Stale-timer trace, step 2: client A disconnects; its room is torn down but
the scheduled timer is not cancelled (the source stores no handle for it). -/
def exC6St2 : ServerState := (onDisconnect [] "A" exC6St1).1

/-- Stale-timer trace, step 3: client B creates a room at time 2000; the
registry is empty again, so B receives the same code 1000. -/
def exC6St3 : ServerState := (createRoom ["B"] exC6Rand 2000 "B" exC6St2).1

/-! Helper lemmas about the association-list map operations. -/

/-- Lookup after delete: the deleted key reads none, others are unchanged. -/
theorem mapGet_mapDelete {α : Type} (m : List (String × α)) (k k2 : String) :
    mapGet (mapDelete m k) k2 = if k2 = k then none else mapGet m k2 := by
  induction m with
  | nil => simp [mapGet, mapDelete]
  | cons p rest ih =>
    obtain ⟨k3, v⟩ := p
    by_cases h3 : k3 = k
    · by_cases h32 : k3 = k2 <;>
        simp_all [mapDelete, mapGet, List.filter]
    · by_cases h32 : k3 = k2 <;>
        simp_all [mapDelete, mapGet, List.filter]

/-- Lookup after set: the written key reads the new value, others are
unchanged. -/
theorem mapGet_mapSet {α : Type} (m : List (String × α)) (k : String) (v : α)
    (k2 : String) :
    mapGet (mapSet m k v) k2 = if k2 = k then some v else mapGet m k2 := by
  induction m with
  | nil =>
    by_cases h : k2 = k
    · simp [mapSet, mapGet, h]
    · simp [mapSet, mapGet, h, Ne.symm h]
  | cons p rest ih =>
    obtain ⟨k3, v3⟩ := p
    by_cases h3 : k3 = k
    · by_cases h32 : k3 = k2 <;> by_cases h2 : k2 = k <;>
        simp_all [mapSet, mapGet]
    · by_cases h32 : k3 = k2 <;> by_cases h2 : k2 = k <;>
        simp_all [mapSet, mapGet]

/-- A successful lookup exhibits a list member. -/
theorem mem_of_mapGet_eq_some {α : Type} {m : List (String × α)} {k : String}
    {v : α} (h : mapGet m k = some v) : (k, v) ∈ m := by
  induction m with
  | nil => simp [mapGet] at h
  | cons p rest ih =>
    obtain ⟨k3, v3⟩ := p
    by_cases h3 : k3 = k
    · subst h3
      simp [mapGet] at h
      simp [h]
    · simp [mapGet, h3] at h
      exact List.mem_cons_of_mem _ (ih h)

/-- With pairwise distinct keys, every list member is found by lookup. -/
theorem mapGet_eq_some_of_mem {α : Type} {m : List (String × α)} {k : String}
    {v : α} (hnd : keysNodup m) (h : (k, v) ∈ m) : mapGet m k = some v := by
  induction m with
  | nil => simp at h
  | cons p rest ih =>
    obtain ⟨k3, v3⟩ := p
    rcases List.mem_cons.mp h with h1 | h1
    · cases h1
      simp [mapGet]
    · have hk3 : k3 ≠ k := by
        intro he
        subst he
        simp [keysNodup] at hnd
        exact hnd.1 v h1
      have hnd2 : keysNodup rest := by
        rw [keysNodup, List.map_cons, List.nodup_cons] at hnd
        exact hnd.2
      simp [mapGet, hk3]
      exact ih hnd2 h1

/-- Every key of the map written by mapSet is the written key or an old
key. -/
theorem mem_keys_mapSet {α : Type} {m : List (String × α)} {k : String}
    {v : α} {x : String} (h : x ∈ (mapSet m k v).map Prod.fst) :
    x = k ∨ x ∈ m.map Prod.fst := by
  induction m with
  | nil =>
    simp [mapSet] at h
    exact Or.inl h
  | cons p rest ih =>
    obtain ⟨k3, v3⟩ := p
    by_cases h3 : k3 = k
    · subst h3
      simp [mapSet] at h ⊢
      tauto
    · rw [show mapSet ((k3, v3) :: rest) k v = (k3, v3) :: mapSet rest k v by
        simp [mapSet, h3]] at h
      rw [List.map_cons, List.mem_cons] at h
      rcases h with h | h
      · exact Or.inr (by simp [h])
      · rcases ih h with h | h
        · exact Or.inl h
        · exact Or.inr (List.mem_cons_of_mem _ h)

/-- mapSet preserves distinctness of keys. -/
theorem keysNodup_mapSet {α : Type} {m : List (String × α)} (k : String)
    (v : α) (hnd : keysNodup m) : keysNodup (mapSet m k v) := by
  induction m with
  | nil => simp [mapSet, keysNodup]
  | cons p rest ih =>
    obtain ⟨k3, v3⟩ := p
    rw [keysNodup, List.map_cons, List.nodup_cons] at hnd
    obtain ⟨hk3, hrest⟩ := hnd
    by_cases h3 : k3 = k
    · subst h3
      rw [show mapSet ((k3, v3) :: rest) k3 v = (k3, v) :: rest by simp [mapSet]]
      rw [keysNodup, List.map_cons, List.nodup_cons]
      exact ⟨hk3, hrest⟩
    · have ih2 := ih hrest
      rw [show mapSet ((k3, v3) :: rest) k v = (k3, v3) :: mapSet rest k v by
        simp [mapSet, h3]]
      rw [keysNodup, List.map_cons, List.nodup_cons]
      refine ⟨fun hmem => ?_, ih2⟩
      rcases mem_keys_mapSet hmem with h | h
      · exact h3 h
      · exact hk3 h

/-- mapDelete preserves distinctness of keys. -/
theorem keysNodup_mapDelete {α : Type} {m : List (String × α)} (k : String)
    (hnd : keysNodup m) : keysNodup (mapDelete m k) := by
  have hsub : (mapDelete m k).map Prod.fst |>.Sublist (m.map Prod.fst) :=
    List.Sublist.map Prod.fst (List.filter_sublist m)
  exact List.Nodup.sublist hsub hnd

/-- C5.  Teardown is idempotent: for every connectivity, state, code and
reason, running cleanupRoom a second time right after a first run returns the
state of the first run unchanged (rooms map, reverse index and heartbeat table
included) and emits no notification and no error. -/
theorem claim_C5_teardown_idempotent (conn : List String) (st : ServerState)
    (roomCode reason : String) :
    cleanupRoom conn (cleanupRoom conn st roomCode reason).1 roomCode reason =
      ((cleanupRoom conn st roomCode reason).1, []) := by
  rcases h : mapGet st.rooms roomCode with _ | r
  · simp [cleanupRoom, h]
  · simp [cleanupRoom, h, mapGet_mapDelete]

/-- C8.  The retry backoff: connection failures with retry counter 0, 1 and 2
schedule retries numbered 1, 2 and 3 after exactly 1000, 2000 and 4000
milliseconds; once the counter has reached maxRetries (3 retries already
used), a further failure yields the terminal failure action and schedules no
retry; and the backoff formula is capped at 30000 milliseconds, exactly 30000
from attempt 5 upward. -/
theorem claim_C8_retry_backoff :
    onPeerConnectionFailed 0 = FailureAction.scheduleRetry 1 1000 ∧
    onPeerConnectionFailed 1 = FailureAction.scheduleRetry 2 2000 ∧
    onPeerConnectionFailed 2 = FailureAction.scheduleRetry 3 4000 ∧
    (∀ n, maxRetries ≤ n → onPeerConnectionFailed n = FailureAction.terminalFailure) ∧
    (∀ a, getRetryDelay a ≤ 30000) ∧
    (∀ a, 5 ≤ a → getRetryDelay a = 30000) := by
  refine ⟨by decide, by decide, by decide, ?_, ?_, ?_⟩
  · intro n hn
    rw [onPeerConnectionFailed, if_neg]
    rw [maxRetries] at hn ⊢
    omega
  · intro a
    exact min_le_right _ _
  · intro a ha
    rw [getRetryDelay, min_eq_right]
    calc (30000 : Nat) ≤ 1000 * 2 ^ 5 := by norm_num
    _ ≤ 1000 * 2 ^ a :=
      Nat.mul_le_mul_left 1000 (Nat.pow_le_pow_right (by norm_num) ha)

/-- C8 witness: the theorem instantiated at counter 3 and attempt 6. -/
theorem claim_C8_retry_backoff_witness :
    onPeerConnectionFailed 3 = FailureAction.terminalFailure ∧
    getRetryDelay 6 = 30000 :=
  ⟨claim_C8_retry_backoff.2.2.2.1 3 (by decide),
    claim_C8_retry_backoff.2.2.2.2.2 6 (by decide)⟩

/-- Flushing attempts exactly the queued candidates, in queue order. -/
theorem attemptedCands_flushPending {Cand : Type} (ok : Cand → Bool)
    (l : List Cand) : attemptedCands (flushPending ok l) = l := by
  induction l with
  | nil => simp [flushPending, attemptedCands]
  | cons c rest ih =>
    rcases h : ok c with _ | _ <;>
      simp [flushPending, addIceAttempt, attemptedCands, h, ih]

/-- Flushing emits one event per queued candidate, also when some
addIceCandidate calls fail. -/
theorem flushPending_length {Cand : Type} (ok : Cand → Bool) (l : List Cand) :
    (flushPending ok l).length = l.length := by
  induction l with
  | nil => simp [flushPending]
  | cons c rest ih => simp [flushPending, ih]

/-- C7.  Client ICE queueing: a candidate arriving on the ice-candidate event
while no remote description is set is appended to the pending queue (and not
passed to addIceCandidate); applying a remote description flushes the queue so
that the addIceCandidate invocations are exactly the queued candidates in
their original arrival order, once each, with one event per candidate even
when some invocations fail (a failed invocation is logged and does not stop
the remaining ones); afterwards the queue is empty, so no queued candidate is
ever delivered twice. -/
theorem claim_C7_ice_queue {Cand : Type} (ok : Cand → Bool)
    (st : NegotiatorState Cand) (c : Cand) :
    (st.remoteDescSet = false →
      onIceCandidateMsg ok true st (some c) =
        ({ st with pendingIceCandidates := st.pendingIceCandidates ++ [c] },
          [IceEvent.queuedCand c])) ∧
    attemptedCands (applyRemoteDescription ok st).2 = st.pendingIceCandidates ∧
    (applyRemoteDescription ok st).2.length = st.pendingIceCandidates.length ∧
    (applyRemoteDescription ok st).1.pendingIceCandidates = [] ∧
    (applyRemoteDescription ok st).1.remoteDescSet = true := by
  refine ⟨fun h => ?_, ?_, ?_, rfl, rfl⟩
  · simp [onIceCandidateMsg, h]
  · exact attemptedCands_flushPending ok st.pendingIceCandidates
  · exact flushPending_length ok st.pendingIceCandidates

/-- C7 witness: a concrete three-candidate queue where the middle
addIceCandidate invocation fails. -/
theorem claim_C7_ice_queue_witness :
    onIceCandidateMsg (fun c => c ≠ 2) true
        ({ remoteDescSet := false, pendingIceCandidates := [1, 2] } :
          NegotiatorState Nat) (some 3) =
      ({ remoteDescSet := false, pendingIceCandidates := [1, 2, 3] },
        [IceEvent.queuedCand 3]) ∧
    attemptedCands (applyRemoteDescription (fun c => c ≠ 2)
        ({ remoteDescSet := false, pendingIceCandidates := [1, 2, 3] } :
          NegotiatorState Nat)).2 = [1, 2, 3] := by
  have h1 := @claim_C7_ice_queue Nat (fun c => c ≠ 2)
    { remoteDescSet := false, pendingIceCandidates := [1, 2] } 3
  have h2 := @claim_C7_ice_queue Nat (fun c => c ≠ 2)
    { remoteDescSet := false, pendingIceCandidates := [1, 2, 3] } 3
  exact ⟨h1.1 rfl, h2.2.1⟩

/-- C1 counterexample: in a live registry whose room 1234 has sender A and
receiver B, the calling connection A is the room sender, yet its offer
produces no forwarded message: the target B has no live transport, so the
handler replies with the Receiver disconnected error instead of forwarding.
This refutes the claim that the offer succeeds and forwards if and only if
the caller is the room sender. -/
theorem claim_C1_counterexample :
    (mapGet exC1State.rooms "1234").map RoomInfo.sender = some "A" ∧
    mapGet exC1State.userRooms "A" = some "1234" ∧
    (relayOffer ["A"] 7 "A"
        { target := some "B", sdp := some "sdpX", isRestart := false }
        exC1State).2 =
      [ServerMsg.errorMsg "A" "Receiver disconnected"] := by
  decide

/-- C1 amended.  For a call carrying both target and sdp, whose caller is
indexed to an existing room by the reverse index, and whose target has a live
transport: relayOffer forwards the sdp with the caller id to the target (and
bumps the room activity) exactly when the caller is the room sender, and
otherwise fails with the Unauthorized error, emitting nothing to anyone else
and leaving the state unchanged; relayAnswer is symmetric with the room
receiver. -/
theorem claim_C1_relay_role_auth (conn : List String) (now : Nat)
    (sid target sdp roomCode : String) (restart : Bool) (st : ServerState)
    (r : RoomInfo) (hm : mapGet st.userRooms sid = some roomCode)
    (hr : mapGet st.rooms roomCode = some r)
    (ht : conn.contains target = true) :
    (r.sender = sid →
      relayOffer conn now sid { target := some target, sdp := some sdp, isRestart := restart } st =
        ({ st with rooms := mapSet st.rooms roomCode ({ r with lastActivity := now }) },
          [ServerMsg.offerMsg target sdp sid restart])) ∧
    (r.sender ≠ sid →
      relayOffer conn now sid { target := some target, sdp := some sdp, isRestart := restart } st =
        (st, [ServerMsg.errorMsg sid "Unauthorized: Not the sender"])) ∧
    (r.receiver = some sid →
      relayAnswer conn now sid { target := some target, sdp := some sdp, isRestart := restart } st =
        ({ st with rooms := mapSet st.rooms roomCode ({ r with lastActivity := now }) },
          [ServerMsg.answerMsg target sdp])) ∧
    (r.receiver ≠ some sid →
      relayAnswer conn now sid { target := some target, sdp := some sdp, isRestart := restart } st =
        (st, [ServerMsg.errorMsg sid "Unauthorized: Not the receiver"])) := by
  have htm : target ∈ conn := by simpa using ht
  refine ⟨fun hs => ?_, fun hs => ?_, fun hs => ?_, fun hs => ?_⟩
  · simp [relayOffer, hm, validateRoom, hr, hs, htm]
  · simp [relayOffer, hm, validateRoom, hr, hs, htm]
  · simp [relayAnswer, hm, validateRoom, hr, hs, htm]
  · simp [relayAnswer, hm, validateRoom, hr, hs, htm]

/-- C1 witness: the amended theorem instantiated on the concrete registry with
sender A and receiver B, both relayed and both refused directions. -/
theorem claim_C1_relay_role_auth_witness :
    (relayOffer ["A", "B"] 7 "A"
        { target := some "B", sdp := some "s1", isRestart := false } exC1State).2 =
      [ServerMsg.offerMsg "B" "s1" "A" false] ∧
    (relayOffer ["A", "B"] 7 "B"
        { target := some "A", sdp := some "s2", isRestart := false } exC1State).2 =
      [ServerMsg.errorMsg "B" "Unauthorized: Not the sender"] ∧
    (relayAnswer ["A", "B"] 7 "B"
        { target := some "A", sdp := some "s3", isRestart := false } exC1State).2 =
      [ServerMsg.answerMsg "A" "s3"] ∧
    (relayAnswer ["A", "B"] 7 "A"
        { target := some "B", sdp := some "s4", isRestart := false } exC1State).2 =
      [ServerMsg.errorMsg "A" "Unauthorized: Not the receiver"] := by
  have hroom : mapGet exC1State.rooms "1234" =
      some { sender := "A", receiver := some "B", created := 0, lastActivity := 0 } := by
    decide
  have hA := claim_C1_relay_role_auth ["A", "B"] 7 "A" "B" "s1" "1234" false
    exC1State _ (by decide) hroom (by decide)
  have hB := claim_C1_relay_role_auth ["A", "B"] 7 "B" "A" "s2" "1234" false
    exC1State _ (by decide) hroom (by decide)
  have hB2 := claim_C1_relay_role_auth ["A", "B"] 7 "B" "A" "s3" "1234" false
    exC1State _ (by decide) hroom (by decide)
  have hA2 := claim_C1_relay_role_auth ["A", "B"] 7 "A" "B" "s4" "1234" false
    exC1State _ (by decide) hroom (by decide)
  refine ⟨?_, ?_, ?_, ?_⟩
  · rw [hA.1 rfl]
  · rw [hB.2.1 (by decide)]
  · rw [hB2.2.2.1 rfl]
  · rw [hA2.2.2.2 (by decide)]

/-- If every candidate the loop may draw collides, the loop runs its fuel out
and stops at the last candidate with the attempts counter one above the start
index plus the fuel. -/
theorem genLoop_all_collide (m : List (String × RoomInfo)) (rand : Nat → Nat) :
    ∀ rem i, (∀ j, j < rem → mapHas m (candidateCode rand (i + j)) = true) →
      genLoop m rand rem i = (candidateCode rand (i + rem), i + rem + 1) := by
  intro rem
  induction rem with
  | zero => intro i _; simp [genLoop]
  | succ rem ih =>
    intro i h
    have h0 : mapHas m (candidateCode rand i) = true := by
      have := h 0 (Nat.succ_pos rem)
      simpa using this
    rw [genLoop]
    simp only [h0, if_true]
    have := ih (i + 1) (fun j hj => by
      have := h (j + 1) (Nat.succ_lt_succ hj)
      have he : i + (j + 1) = i + 1 + j := by omega
      rwa [he] at this)
    rw [this]
    have he : i + 1 + rem = i + (rem + 1) := by omega
    rw [he]

/-- If the candidates drawn before index j collide and candidate j is within
the fuel and fresh, the loop stops at candidate j with attempts j plus one. -/
theorem genLoop_first_fresh (m : List (String × RoomInfo)) (rand : Nat → Nat) :
    ∀ rem i j, j ≤ rem →
      (∀ k, k < j → mapHas m (candidateCode rand (i + k)) = true) →
      mapHas m (candidateCode rand (i + j)) = false →
      genLoop m rand rem i = (candidateCode rand (i + j), i + j + 1) := by
  intro rem
  induction rem with
  | zero =>
    intro i j hj _ _
    interval_cases j
    simp [genLoop]
  | succ rem ih =>
    intro i j hj hcoll hfresh
    rcases Nat.eq_zero_or_pos j with hj0 | hjpos
    · subst hj0
      simp only [Nat.add_zero] at hfresh
      rw [genLoop]
      simp [hfresh]
    · have h0 : mapHas m (candidateCode rand i) = true := by
        have := hcoll 0 hjpos
        simpa using this
      rw [genLoop]
      simp only [h0, if_true]
      obtain ⟨j2, rfl⟩ : ∃ j2, j = j2 + 1 := ⟨j - 1, by omega⟩
      have := ih (i + 1) j2 (by omega)
        (fun k hk => by
          have := hcoll (k + 1) (Nat.succ_lt_succ hk)
          have he : i + (k + 1) = i + 1 + k := by omega
          rwa [he] at this)
        (by
          have he : i + 1 + j2 = i + (j2 + 1) := by omega
          rwa [he])
      rw [this]
      have he : i + 1 + j2 = i + (j2 + 1) := by omega
      rw [he]

/-- Starting from index zero with fuel nine, an attempts counter below ten at
exit means the loop stopped on a fresh candidate. -/
theorem genLoop_exit_fresh (m : List (String × RoomInfo)) (rand : Nat → Nat) :
    ∀ rem i, i + rem = 9 → (genLoop m rand rem i).2 < 10 →
      mapHas m (genLoop m rand rem i).1 = false := by
  intro rem
  induction rem with
  | zero =>
    intro i hi hlt
    simp [genLoop] at hlt
    omega
  | succ rem ih =>
    intro i hi hlt
    rcases h0 : mapHas m (candidateCode rand i) with _ | _
    · rw [genLoop]
      simp [h0]
    · rw [genLoop] at hlt ⊢
      simp only [h0, if_true] at hlt ⊢
      exact ih (i + 1) (by omega) hlt

/-- C2 counterexample: against a registry whose only live room has code 1000
and a random stream drawing 1000 nine times and then the fresh candidate
1001, create-room reports the generation failure and registers nothing, even
though the tenth sampled candidate does not collide.  This refutes the claim
that the failure occurs only when all ten sampled candidates collide and that
otherwise the room is registered under the first non-colliding candidate. -/
theorem claim_C2_counterexample :
    candidateCode exC2Rand 9 = "1001" ∧
    mapHas exC2State.rooms (candidateCode exC2Rand 9) = false ∧
    (createRoom [] exC2Rand 5 "B" exC2State).2 =
      [ServerMsg.errorMsg "B" "Failed to generate unique room code"] ∧
    (createRoom [] exC2Rand 5 "B" exC2State).1 = exC2State := by
  decide

/-- C2 amended.  For a requester owning no room: create-room fails with the
code-generation error, leaving the registry unchanged, exactly when the first
NINE sampled candidates all collide with live codes (a tenth candidate is
drawn in that case but its freshness is never consulted); when one of the
first nine candidates is fresh, the room is registered under the first
non-colliding candidate and announced with room-created. -/
theorem claim_C2_create_room_retry (conn : List String) (rand : Nat → Nat)
    (now : Nat) (sid : String) (st : ServerState)
    (hnoroom : mapGet st.userRooms sid = none) :
    ((createRoom conn rand now sid st).2 =
        [ServerMsg.errorMsg sid "Failed to generate unique room code"] ∧
      (createRoom conn rand now sid st).1 = st ↔
        ∀ i, i < 9 → mapHas st.rooms (candidateCode rand i) = true) ∧
    ((∃ i, i < 9 ∧ mapHas st.rooms (candidateCode rand i) = false) →
      ∃ j, j < 9 ∧ mapHas st.rooms (candidateCode rand j) = false ∧
        (∀ k, k < j → mapHas st.rooms (candidateCode rand k) = true) ∧
        (createRoom conn rand now sid st).2 =
          [ServerMsg.roomCreated sid (candidateCode rand j)] ∧
        mapGet (createRoom conn rand now sid st).1.rooms (candidateCode rand j) =
          some { sender := sid, receiver := none, created := now,
                 lastActivity := now }) := by
  constructor
  · constructor
    · intro herr
      by_contra hnot
      push_neg at hnot
      obtain ⟨i, hi9, hifresh⟩ := hnot
      have hfreshb : mapHas st.rooms (candidateCode rand i) = false := by
        simpa using hifresh
      have hex : ∃ n, mapHas st.rooms (candidateCode rand n) = false :=
        ⟨i, hfreshb⟩
      set j := Nat.find hex with hjdef
      have hjfresh : mapHas st.rooms (candidateCode rand j) = false :=
        Nat.find_spec hex
      have hjle : j ≤ i := Nat.find_min' hex hfreshb
      have hjcoll : ∀ k, k < j → mapHas st.rooms (candidateCode rand k) = true := by
        intro k hk
        have := Nat.find_min hex hk
        simpa using this
      have hloop := genLoop_first_fresh st.rooms rand 9 0 j (by omega)
        (by simpa using hjcoll) (by simpa using hjfresh)
      rw [createRoom] at herr
      simp only [hnoroom] at herr
      rw [hloop] at herr
      have hnotten : ¬ (10 ≤ 0 + j + 1) := by omega
      simp only [ge_iff_le, hnotten, if_false] at herr
      simp at herr
    · intro hall
      have hloop := genLoop_all_collide st.rooms rand 9 0 (by simpa using hall)
      rw [createRoom]
      simp only [hnoroom]
      rw [hloop]
      norm_num
  · intro hex9
    obtain ⟨i, hi9, hifresh⟩ := hex9
    have hex : ∃ n, mapHas st.rooms (candidateCode rand n) = false := ⟨i, hifresh⟩
    set j := Nat.find hex with hjdef
    have hjfresh : mapHas st.rooms (candidateCode rand j) = false :=
      Nat.find_spec hex
    have hjle : j ≤ i := Nat.find_min' hex hifresh
    have hjcoll : ∀ k, k < j → mapHas st.rooms (candidateCode rand k) = true := by
      intro k hk
      have := Nat.find_min hex hk
      simpa using this
    refine ⟨j, by omega, hjfresh, hjcoll, ?_⟩
    have hloop := genLoop_first_fresh st.rooms rand 9 0 j (by omega)
      (by simpa using hjcoll) (by simpa using hjfresh)
    rw [createRoom]
    simp only [hnoroom]
    rw [hloop]
    have hnotten : ¬ (10 ≤ 0 + j + 1) := by omega
    simp only [ge_iff_le, hnotten, if_false]
    constructor
    · simp
    · simp [mapGet_mapSet]

/-- Every message cleanupRoom emits is a room-closed notice with the given
reason. -/
theorem cleanupRoom_msgs_shape (conn : List String) (st : ServerState)
    (code reason : String) :
    ∀ msg ∈ (cleanupRoom conn st code reason).2,
      ∃ d, msg = ServerMsg.roomClosed d reason := by
  intro msg hmsg
  rcases hroom : mapGet st.rooms code with _ | r
  · simp [cleanupRoom, hroom] at hmsg
  · rcases hrecv : r.receiver with _ | rc
    · simp only [cleanupRoom, hroom, hrecv, List.append_nil] at hmsg
      split_ifs at hmsg
      · simp only [List.mem_singleton] at hmsg
        exact ⟨r.sender, hmsg⟩
      · simp at hmsg
    · simp only [cleanupRoom, hroom, hrecv, List.mem_append] at hmsg
      rcases hmsg with h | h
      · split_ifs at h
        · simp only [List.mem_singleton] at h
          exact ⟨r.sender, h⟩
        · simp at h
      · split_ifs at h
        · simp only [List.mem_singleton] at h
          exact ⟨rc, h⟩
        · simp at h

/-- C3.  A successful create-room reply never announces a code that is held
by a room still live when the new room is registered: the announced code
either was not registered at all at call time, or was the code of the room
the requester itself owned, which this very call tears down first.  The new
room is registered under the announced code and key distinctness of the
registry is preserved, so codes announced by successful create-room calls are
pairwise distinct while their rooms stay live. -/
theorem claim_C3_unique_live_codes (conn : List String) (rand : Nat → Nat)
    (now : Nat) (sid : String) (st : ServerState) (hnd : keysNodup st.rooms) :
    ∀ code, ServerMsg.roomCreated sid code ∈ (createRoom conn rand now sid st).2 →
      (mapGet st.rooms code = none ∨ mapGet st.userRooms sid = some code) ∧
      mapGet (createRoom conn rand now sid st).1.rooms code =
        some { sender := sid, receiver := none, created := now,
               lastActivity := now } ∧
      keysNodup (createRoom conn rand now sid st).1.rooms := by
  intro code hmem
  rcases husr : mapGet st.userRooms sid with _ | existing
  · by_cases hten : 10 ≤ (genLoop st.rooms rand 9 0).2
    · simp [createRoom, husr, hten] at hmem
    · have hlt : (genLoop st.rooms rand 9 0).2 < 10 := by omega
      have hfresh := genLoop_exit_fresh st.rooms rand 9 0 (by norm_num) hlt
      have hcode : code = (genLoop st.rooms rand 9 0).1 := by
        simp [createRoom, husr, hten] at hmem
        exact hmem
      subst hcode
      have hnone : mapGet st.rooms (genLoop st.rooms rand 9 0).1 = none := by
        rcases h : mapGet st.rooms (genLoop st.rooms rand 9 0).1 with _ | v
        · rfl
        · rw [mapHas, h] at hfresh
          simp at hfresh
      refine ⟨Or.inl hnone, ?_, ?_⟩
      · simp [createRoom, husr, hten, mapGet_mapSet]
      · simp only [createRoom, husr, hten, if_false]
        exact keysNodup_mapSet _ _ hnd
  · rcases hex : mapGet st.rooms existing with _ | r
    · have hcl : cleanupRoom conn st existing "new-room-created" = (st, []) := by
        simp [cleanupRoom, hex]
      by_cases hten : 10 ≤ (genLoop st.rooms rand 9 0).2
      · simp [createRoom, husr, hcl, hten] at hmem
      · have hlt : (genLoop st.rooms rand 9 0).2 < 10 := by omega
        have hfresh := genLoop_exit_fresh st.rooms rand 9 0 (by norm_num) hlt
        have hcode : code = (genLoop st.rooms rand 9 0).1 := by
          simp [createRoom, husr, hcl, hten] at hmem
          exact hmem
        subst hcode
        have hnone : mapGet st.rooms (genLoop st.rooms rand 9 0).1 = none := by
          rcases h : mapGet st.rooms (genLoop st.rooms rand 9 0).1 with _ | v
          · rfl
          · rw [mapHas, h] at hfresh
            simp at hfresh
        refine ⟨Or.inl hnone, ?_, ?_⟩
        · simp [createRoom, husr, hcl, hten, mapGet_mapSet]
        · simp only [createRoom, husr, hcl, if_false, hten]
          exact keysNodup_mapSet _ _ hnd
    · have hc1 : (cleanupRoom conn st existing "new-room-created").1.rooms =
          mapDelete st.rooms existing := by
        simp [cleanupRoom, hex]
      have hndel : keysNodup (cleanupRoom conn st existing "new-room-created").1.rooms := by
        rw [hc1]
        exact keysNodup_mapDelete _ hnd
      by_cases hten : 10 ≤
          (genLoop (cleanupRoom conn st existing "new-room-created").1.rooms rand 9 0).2
      · rw [createRoom] at hmem
        simp only [husr] at hmem
        rw [if_pos (by exact hten)] at hmem
        rcases List.mem_append.mp hmem with h | h
        · obtain ⟨d, hd⟩ := cleanupRoom_msgs_shape conn st existing "new-room-created" _ h
          simp at hd
        · simp at h
      · rw [createRoom] at hmem
        simp only [husr] at hmem
        rw [if_neg (by exact hten)] at hmem
        set g := (genLoop (cleanupRoom conn st existing "new-room-created").1.rooms rand 9 0).1
          with hgdef
        have hcode : code = g := by
          rcases List.mem_append.mp hmem with h | h
          · obtain ⟨d, hd⟩ :=
              cleanupRoom_msgs_shape conn st existing "new-room-created" _ h
            simp at hd
          · simp at h
            exact h
        have hlt :
            (genLoop (cleanupRoom conn st existing "new-room-created").1.rooms rand 9 0).2 < 10 := by
          omega
        have hfresh := genLoop_exit_fresh
          (cleanupRoom conn st existing "new-room-created").1.rooms rand 9 0
          (by norm_num) hlt
        rw [mapHas, ← hgdef] at hfresh
        have hnone : mapGet (cleanupRoom conn st existing "new-room-created").1.rooms g = none := by
          rcases h : mapGet (cleanupRoom conn st existing "new-room-created").1.rooms g with _ | v
          · rfl
          · rw [h] at hfresh
            simp at hfresh
        subst hcode
        rw [hc1, mapGet_mapDelete] at hnone
        refine ⟨?_, ?_, ?_⟩
        · by_cases hce : g = existing
          · exact Or.inr (by rw [hce])
          · rw [if_neg hce] at hnone
            exact Or.inl hnone
        · rw [createRoom]
          simp only [husr]
          rw [if_neg (by exact hten)]
          simp [mapGet_mapSet, ← hgdef]
        · rw [createRoom]
          simp only [husr]
          rw [if_neg (by exact hten)]
          exact keysNodup_mapSet _ _ hndel

/-- C3 witness: in the empty registry, creating a room as client A announces
the fresh code 1000, which was not live before and is live with A as sender
afterwards. -/
theorem claim_C3_unique_live_codes_witness :
    (mapGet ServerState.init.rooms "1000" = none ∨
      mapGet ServerState.init.userRooms "A" = some "1000") ∧
    mapGet (createRoom ["A"] exC6Rand 0 "A" ServerState.init).1.rooms "1000" =
      some { sender := "A", receiver := none, created := 0, lastActivity := 0 } ∧
    keysNodup (createRoom ["A"] exC6Rand 0 "A" ServerState.init).1.rooms :=
  claim_C3_unique_live_codes ["A"] exC6Rand 0 "A" ServerState.init
    (by simp [ServerState.init, keysNodup]) "1000" (by decide)

/-- C2 witness: with every sample colliding against the registry holding room
1000, create-room reports the generation failure and changes nothing. -/
theorem claim_C2_create_room_retry_witness :
    (createRoom [] exC6Rand 5 "B" exC2State).2 =
      [ServerMsg.errorMsg "B" "Failed to generate unique room code"] ∧
    (createRoom [] exC6Rand 5 "B" exC2State).1 = exC2State :=
  (claim_C2_create_room_retry [] exC6Rand 5 "B" exC2State (by decide)).1.mpr
    (fun i _ => by
      have h : candidateCode exC6Rand i = candidateCode exC6Rand 0 := rfl
      rw [h]
      decide)

/-- C4.  Join-room semantics: a join on a live room that already has a
receiver fails with the Room is full error and leaves the whole server state
(room record, membership, indexes) unchanged; a join with an unknown
four-character code fails with Room not found and changes nothing; and a join
acknowledged with room-joined found the room with no receiver and bound the
receiver to the joiner (with refreshed activity), so the receiver field of a
room is set exactly once: any further join of that room hits the Room is full
branch. -/
theorem claim_C4_join_room (conn : List String) (now : Nat)
    (sid roomCode : String) (st : ServerState) :
    (∀ r, mapGet st.rooms roomCode = some r → r.receiver.isSome = true →
      roomCode.length = 4 →
      joinRoom conn now sid roomCode st = (st, [ServerMsg.errorMsg sid "Room is full"])) ∧
    (roomCode.length = 4 → mapGet st.rooms roomCode = none →
      joinRoom conn now sid roomCode st = (st, [ServerMsg.errorMsg sid "Room not found"])) ∧
    (∀ st2 msgs, joinRoom conn now sid roomCode st = (st2, msgs) →
      ServerMsg.roomJoined sid roomCode ∈ msgs →
      ∃ r, mapGet st.rooms roomCode = some r ∧ r.receiver = none ∧
        mapGet st2.rooms roomCode =
          some { r with receiver := some sid, lastActivity := now }) := by
  refine ⟨?_, ?_, ?_⟩
  · intro r hr hfull hlen
    simp [joinRoom, hlen, hr, hfull]
  · intro hlen hnone
    simp [joinRoom, hlen, hnone]
  · intro st2 msgs hrun hmem
    by_cases hlen : roomCode.length = 4
    swap
    · simp [joinRoom, hlen] at hrun
      rw [← hrun.2] at hmem
      simp at hmem
    rcases hroom : mapGet st.rooms roomCode with _ | r
    · simp [joinRoom, hlen, hroom] at hrun
      rw [← hrun.2] at hmem
      simp at hmem
    by_cases hfull : r.receiver.isSome = true
    · simp [joinRoom, hlen, hroom, hfull] at hrun
      rw [← hrun.2] at hmem
      simp at hmem
    have hrecv : r.receiver = none := Option.not_isSome_iff_eq_none.mp (by simpa using hfull)
    by_cases hsz0 : ((mapGet st.adapterRooms roomCode).getD []).length = 0
    · simp [joinRoom, hlen, hroom, hfull, hsz0] at hrun
      rw [← hrun.2] at hmem
      simp at hmem
    by_cases hsz2 : ((mapGet st.adapterRooms roomCode).getD []).length ≥ 2
    · simp [joinRoom, hlen, hroom, hfull, hsz0, hsz2] at hrun
      rw [← hrun.2] at hmem
      simp at hmem
    refine ⟨r, rfl, hrecv, ?_⟩
    rw [joinRoom] at hrun
    rw [if_neg (by simp [hlen])] at hrun
    simp only [hroom] at hrun
    rw [if_neg (by simp [hfull])] at hrun
    rw [if_neg hsz0, if_neg hsz2] at hrun
    injection hrun with h1 h2
    rw [← h1]
    simp [mapGet_mapSet]

/-- C4 witness: the theorem instantiated on a one-room registry, in the full,
unknown-code and successful cases. -/
theorem claim_C4_join_room_witness :
    joinRoom ["A"] 9 "C" "1234" exC1State =
      (exC1State, [ServerMsg.errorMsg "C" "Room is full"]) ∧
    joinRoom ["A"] 9 "C" "9999" exC1State =
      (exC1State, [ServerMsg.errorMsg "C" "Room not found"]) ∧
    (∃ r, mapGet exC6St1.rooms "1000" = some r ∧ r.receiver = none ∧
      mapGet (joinRoom ["A", "B"] 9 "B" "1000" exC6St1).1.rooms "1000" =
        some { r with receiver := some "B", lastActivity := 9 }) := by
  refine ⟨?_, ?_, ?_⟩
  · exact (claim_C4_join_room ["A"] 9 "C" "1234" exC1State).1
      { sender := "A", receiver := some "B", created := 0, lastActivity := 0 }
      (by decide) (by decide) (by decide)
  · exact (claim_C4_join_room ["A"] 9 "C" "9999" exC1State).2.1 (by decide)
      (by decide)
  · exact (claim_C4_join_room ["A", "B"] 9 "B" "1000" exC6St1).2.2
      (joinRoom ["A", "B"] 9 "B" "1000" exC6St1).1
      (joinRoom ["A", "B"] 9 "B" "1000" exC6St1).2
      Prod.mk.eta.symm (by decide)

/-- C6.  Failing trace for timer cancellation: client A creates room 1000 at
time 0 (scheduling the 30-minute timer), A disconnects and the room is torn
down, then client B creates a new room that reuses code 1000 at time 2000.
The timer scheduled for the torn-down room is still pending (teardown stores
and cancels no handle), and when it fires it finds the later room under the
captured code, sees no receiver, and tears down the room B owns, notifying B
with the timeout reason.  The spec requires teardown to cancel every pending
timer of the room precisely so that this cannot happen. -/
theorem claim_C6_stale_timer :
    ({ code := "1000", fireAt := 1800000 } : RoomTimer) ∈ exC6St3.timers ∧
    mapGet exC6St3.rooms "1000" =
      some { sender := "B", receiver := none, created := 2000,
             lastActivity := 2000 } ∧
    (roomTimeoutFire ["B"] exC6St3 "1000").2 =
      [ServerMsg.roomClosed "B" "timeout-no-receiver"] ∧
    mapGet (roomTimeoutFire ["B"] exC6St3 "1000").1.rooms "1000" = none := by
  decide

/-- Rooms whose every binding under a key has a clear sweep verdict keep their
lookup result across the sweep iteration. -/
theorem sweepGo_unchanged (conn : List String) (now : Nat) :
    ∀ (l : List (String × RoomInfo)) (st : ServerState) (acc : List ServerMsg)
      (code : String),
      (∀ r, (code, r) ∈ l → (sweepReason conn now r).isSome = false) →
      mapGet (sweepGo conn now l st acc).1.rooms code = mapGet st.rooms code := by
  intro l
  induction l with
  | nil => intro st acc code _; simp [sweepGo]
  | cons p rest ih =>
    intro st acc code h
    obtain ⟨c0, r0⟩ := p
    rcases hreason : sweepReason conn now r0 with _ | reason
    · simp only [sweepGo, hreason]
      exact ih st acc code (fun r hr => h r (List.mem_cons_of_mem _ hr))
    · simp only [sweepGo, hreason]
      have hne : code ≠ c0 := by
        intro he
        subst he
        have := h r0 (List.mem_cons_self _ _)
        rw [hreason] at this
        simp at this
      rw [ih _ _ code (fun r hr => h r (List.mem_cons_of_mem _ hr))]
      rcases hroom : mapGet st.rooms c0 with _ | rr
      · simp [cleanupRoom, hroom]
      · simp [cleanupRoom, hroom, mapGet_mapDelete, hne]

/-- A room whose sweep verdict is set is gone after the sweep iteration. -/
theorem sweepGo_cleans (conn : List String) (now : Nat) :
    ∀ (l : List (String × RoomInfo)) (st : ServerState) (acc : List ServerMsg)
      (code : String) (r : RoomInfo),
      keysNodup l →
      (∀ p, p ∈ l → mapGet st.rooms p.1 = some p.2) →
      (code, r) ∈ l → (sweepReason conn now r).isSome = true →
      mapGet (sweepGo conn now l st acc).1.rooms code = none := by
  intro l
  induction l with
  | nil => intro st acc code r _ _ hmem _; simp at hmem
  | cons p rest ih =>
    intro st acc code r hnd hst hmem hsome
    obtain ⟨c0, r0⟩ := p
    rw [keysNodup, List.map_cons, List.nodup_cons] at hnd
    obtain ⟨hc0notin, hndrest⟩ := hnd
    rcases List.mem_cons.mp hmem with he | hmemrest
    · obtain ⟨he1, he2⟩ := Prod.mk.injEq _ _ _ _ ▸ he
      subst he1
      subst he2
      rcases hreason : sweepReason conn now r with _ | reason
      · rw [hreason] at hsome
        simp at hsome
      · simp only [sweepGo, hreason]
        rw [sweepGo_unchanged conn now rest _ _ code
          (fun r2 hr2 => absurd (List.mem_map_of_mem Prod.fst hr2) (by simpa using hc0notin))]
        have hroom : mapGet st.rooms code = some r :=
          hst (code, r) (List.mem_cons_self _ _)
        simp [cleanupRoom, hroom, mapGet_mapDelete]
    · rcases hreason : sweepReason conn now r0 with _ | reason
      · simp only [sweepGo, hreason]
        exact ih st acc code r hndrest
          (fun p hp => hst p (List.mem_cons_of_mem _ hp)) hmemrest hsome
      · simp only [sweepGo, hreason]
        apply ih _ _ code r hndrest ?_ hmemrest hsome
        intro p hp
        have hpne : p.1 ≠ c0 := by
          intro he
          have hmm2 := List.mem_map_of_mem Prod.fst hp
          rw [he] at hmm2
          exact hc0notin hmm2
        have hkeep := hst p (List.mem_cons_of_mem _ hp)
        rcases hroom : mapGet st.rooms c0 with _ | rr
        · simpa [cleanupRoom, hroom] using hkeep
        · simp [cleanupRoom, hroom, mapGet_mapDelete, hpne]
          exact hkeep

/-- The sweep verdict is set exactly when one of the three spec conditions
holds: age above 30 minutes, or inactivity above 5 minutes with no receiver,
or no live transport on either participant. -/
theorem sweepReason_isSome_iff (conn : List String) (now : Nat) (r : RoomInfo) :
    (sweepReason conn now r).isSome = true ↔
      (30 * 60 * 1000 < now - r.created ∨
        (5 * 60 * 1000 < now - r.lastActivity ∧ r.receiver = none) ∨
        (conn.contains r.sender = false ∧
          ∀ rc, r.receiver = some rc → conn.contains rc = false)) := by
  unfold sweepReason
  rcases hrecv : r.receiver with _ | rc
  · by_cases h1 : now - r.created > 30 * 60 * 1000
    · simp [h1]
    · by_cases h2 : now - r.lastActivity > 5 * 60 * 1000
      · simp [h1, h2]
      · by_cases h3 : r.sender ∈ conn
        · simp [h1, h2, h3]
        · simp [h1, h2, h3]
  · by_cases h1 : now - r.created > 30 * 60 * 1000
    · simp [h1]
    · by_cases h2 : now - r.lastActivity > 5 * 60 * 1000
      · by_cases h3 : r.sender ∈ conn
        · by_cases h4 : rc ∈ conn
          · simp [h1, h2, h3, h4]
          · simp [h1, h2, h3, h4]
        · by_cases h4 : rc ∈ conn
          · simp [h1, h2, h3, h4]
          · simp [h1, h2, h3, h4]
      · by_cases h3 : r.sender ∈ conn
        · by_cases h4 : rc ∈ conn
          · simp [h1, h2, h3, h4]
          · simp [h1, h2, h3, h4]
        · by_cases h4 : rc ∈ conn
          · simp [h1, h2, h3, h4]
          · simp [h1, h2, h3, h4]

/-- C9.  The 5-minute room sweep removes a live room exactly when its age
exceeds 30 minutes, or it has been inactive for more than 5 minutes with no
receiver ever joined, or neither the sender nor the receiver has a live
transport connection; a room meeting none of these conditions keeps its exact
record across the sweep. -/
theorem claim_C9_room_sweep (conn : List String) (now : Nat) (st : ServerState)
    (hnd : keysNodup st.rooms) (code : String) (r : RoomInfo)
    (hr : mapGet st.rooms code = some r) :
    (mapGet (roomSweep conn now st).1.rooms code = none ↔
      (30 * 60 * 1000 < now - r.created ∨
        (5 * 60 * 1000 < now - r.lastActivity ∧ r.receiver = none) ∨
        (conn.contains r.sender = false ∧
          ∀ rc, r.receiver = some rc → conn.contains rc = false))) ∧
    (¬ (30 * 60 * 1000 < now - r.created ∨
        (5 * 60 * 1000 < now - r.lastActivity ∧ r.receiver = none) ∨
        (conn.contains r.sender = false ∧
          ∀ rc, r.receiver = some rc → conn.contains rc = false)) →
      mapGet (roomSweep conn now st).1.rooms code = some r) := by
  have hmem : (code, r) ∈ st.rooms := mem_of_mapGet_eq_some hr
  have hst : ∀ p, p ∈ st.rooms → mapGet st.rooms p.1 = some p.2 := by
    intro p hp
    obtain ⟨a, b⟩ := p
    exact mapGet_eq_some_of_mem hnd hp
  have huniq : ∀ r2, (code, r2) ∈ st.rooms → r2 = r := by
    intro r2 hr2
    have := mapGet_eq_some_of_mem hnd hr2
    rw [hr] at this
    exact (Option.some.injEq _ _ ▸ this).symm
  have hkeep : (sweepReason conn now r).isSome = false →
      mapGet (roomSweep conn now st).1.rooms code = some r := by
    intro hfalse
    rw [roomSweep, sweepGo_unchanged conn now st.rooms st [] code
      (fun r2 hr2 => by rw [huniq r2 hr2]; exact hfalse)]
    exact hr
  constructor
  · constructor
    · intro hnone
      by_contra hcond
      rw [← sweepReason_isSome_iff conn now r] at hcond
      have hfalse : (sweepReason conn now r).isSome = false := by
        simpa using hcond
      rw [hkeep hfalse] at hnone
      simp at hnone
    · intro hcond
      rw [← sweepReason_isSome_iff conn now r] at hcond
      rw [roomSweep]
      exact sweepGo_cleans conn now st.rooms st [] code r hnd hst hmem hcond
  · intro hcond
    rw [← sweepReason_isSome_iff conn now r] at hcond
    exact hkeep (by simpa using hcond)

/-- C9 witness: the paired room 1234 with both parties connected is kept by a
sweep at time 100 and removed by a sweep at time 2000000, when its age exceeds
30 minutes. -/
theorem claim_C9_room_sweep_witness :
    mapGet (roomSweep ["A", "B"] 100 exC1State).1.rooms "1234" =
      some { sender := "A", receiver := some "B", created := 0,
             lastActivity := 0 } ∧
    mapGet (roomSweep ["A", "B"] 2000000 exC1State).1.rooms "1234" = none := by
  have hnd : keysNodup exC1State.rooms := by
    simp [exC1State, keysNodup]
  have hr : mapGet exC1State.rooms "1234" =
      some { sender := "A", receiver := some "B", created := 0,
             lastActivity := 0 } := by decide
  constructor
  · refine (claim_C9_room_sweep ["A", "B"] 100 exC1State hnd "1234" _ hr).2 ?_
    rintro (h | h | h)
    · simp at h
    · simp at h
    · obtain ⟨h1, _⟩ := h
      simp at h1
  · refine (claim_C9_room_sweep ["A", "B"] 2000000 exC1State hnd "1234" _ hr).1.mpr ?_
    exact Or.inl (by norm_num)

/-- Terminal step of the decimal printer: with fuel left and a one-digit
value, it pushes that digit. -/
theorem toDigitsCore_term (f n : Nat) (ds : List Char) (hf : 0 < f)
    (h : n / 10 = 0) :
    Nat.toDigitsCore 10 f n ds = Nat.digitChar (n % 10) :: ds := by
  cases f with
  | zero => exact absurd hf (by simp)
  | succ f2 => simp [Nat.toDigitsCore, h]

/-- Recursive step of the decimal printer: with fuel left and a value of two
or more digits, it pushes the last digit and recurses on the quotient. -/
theorem toDigitsCore_step (f n : Nat) (ds : List Char) (hf : 0 < f)
    (h : n / 10 ≠ 0) :
    Nat.toDigitsCore 10 f n ds =
      Nat.toDigitsCore 10 (f - 1) (n / 10) (Nat.digitChar (n % 10) :: ds) := by
  cases f with
  | zero => exact absurd hf (by simp)
  | succ f2 => simp [Nat.toDigitsCore, h]

/-- The decimal string of a number between 1000 and 9999 is its four digits. -/
theorem repr_eq_four_digits (n : Nat) (h1 : 1000 ≤ n) (h2 : n ≤ 9999) :
    Nat.repr n =
      [Nat.digitChar (n / 1000), Nat.digitChar (n / 100 % 10),
        Nat.digitChar (n / 10 % 10), Nat.digitChar (n % 10)].asString := by
  have e1 : n / 10 / 10 = n / 100 := by
    rw [Nat.div_div_eq_div_mul]
  have e2 : n / 100 / 10 = n / 1000 := by
    rw [Nat.div_div_eq_div_mul]
  have b1 : n / 10 ≠ 0 := by omega
  have b2 : n / 100 ≠ 0 := by omega
  have b3 : n / 1000 ≠ 0 := by omega
  have b9 : n / 1000 < 10 := by omega
  have b4 : n / 1000 / 10 = 0 := Nat.div_eq_of_lt b9
  rw [Nat.repr, Nat.toDigits]
  rw [toDigitsCore_step (n + 1) n [] (by omega) b1]
  rw [show n + 1 - 1 = n by omega]
  rw [toDigitsCore_step n (n / 10) _ (by omega) (by rw [e1]; exact b2)]
  rw [e1]
  rw [toDigitsCore_step (n - 1) (n / 100) _ (by omega) (by rw [e2]; exact b3)]
  rw [e2]
  rw [toDigitsCore_term (n - 1 - 1) (n / 1000) _ (by omega) b4]
  rw [Nat.mod_eq_of_lt b9]

/-- No digit of a number between 1 and 9 prints as the character 0. -/
theorem digitChar_ne_zero (k : Nat) (h1 : 1 ≤ k) (h9 : k ≤ 9) :
    Nat.digitChar k ≠ ('0' : Char) := by
  interval_cases k <;> decide

/-- C10.  Every candidate code drawn from an in-range sample is the decimal
string of an integer between 1000 and 9999: it has exactly four characters
and its first character is never the digit 0.  Consequently, in a registry
whose live codes are all generated this way, a join attempt with a
four-character code starting with the digit 0 (such as 0000) always fails
with Room not found, leaving the state unchanged. -/
theorem claim_C10_code_format :
    (∀ (rand : Nat → Nat) (i : Nat), rand i < 9000 →
      candidateCode rand i = Nat.repr (1000 + rand i) ∧
      1000 ≤ 1000 + rand i ∧ 1000 + rand i ≤ 9999 ∧
      (candidateCode rand i).length = 4 ∧
      (candidateCode rand i).data.head? ≠ some ('0' : Char)) ∧
    (∀ (conn : List String) (now : Nat) (sid : String) (st : ServerState)
        (c : String),
      (∀ code, mapHas st.rooms code = true →
        ∃ k, k < 9000 ∧ code = Nat.repr (1000 + k)) →
      c.data.head? = some ('0' : Char) → c.length = 4 →
      joinRoom conn now sid c st =
        (st, [ServerMsg.errorMsg sid "Room not found"])) := by
  have hhead : ∀ k, k < 9000 →
      (Nat.repr (1000 + k)).data.head? ≠ some ('0' : Char) := by
    intro k hk
    rw [repr_eq_four_digits (1000 + k) (by omega) (by omega)]
    have hq1 : 1 ≤ (1000 + k) / 1000 := by omega
    have hq9 : (1000 + k) / 1000 ≤ 9 := by omega
    simpa [List.asString] using digitChar_ne_zero _ hq1 hq9
  constructor
  · intro rand i hlt
    refine ⟨rfl, by omega, by omega, ?_, ?_⟩
    · have : candidateCode rand i = Nat.repr (1000 + rand i) := rfl
      rw [this, repr_eq_four_digits (1000 + rand i) (by omega) (by omega)]
      simp [List.asString, String.length]
    · have : candidateCode rand i = Nat.repr (1000 + rand i) := rfl
      rw [this]
      exact hhead (rand i) hlt
  · intro conn now sid st c hcodes hc0 hlen
    have hnone : mapGet st.rooms c = none := by
      rcases h : mapGet st.rooms c with _ | r
      · rfl
      · have hhas : mapHas st.rooms c = true := by
          rw [mapHas, h]
          rfl
        obtain ⟨k, hk, he⟩ := hcodes c hhas
        rw [he] at hc0
        exact absurd hc0 (by
          have := hhead k hk
          intro hcontra
          apply this
          rw [repr_eq_four_digits (1000 + k) (by omega) (by omega)] at hcontra ⊢
          simp [List.asString] at hcontra ⊢
          exact hcontra)
    simp [joinRoom, hlen, hnone]

/-- C10 witness: at sample 0 the code is the string 1000, four characters and
not starting with 0, and joining the empty registry with the string 0000
fails with Room not found. -/
theorem claim_C10_code_format_witness :
    candidateCode exC6Rand 0 = Nat.repr 1000 ∧
    (candidateCode exC6Rand 0).length = 4 ∧
    (candidateCode exC6Rand 0).data.head? ≠ some ('0' : Char) ∧
    joinRoom [] 0 "B" "0000" ServerState.init =
      (ServerState.init, [ServerMsg.errorMsg "B" "Room not found"]) := by
  have h1 := claim_C10_code_format.1 exC6Rand 0 (by decide)
  have h2 := claim_C10_code_format.2 [] 0 "B" ServerState.init "0000"
    (fun code hcode => by simp [ServerState.init, mapHas, mapGet] at hcode)
    (by decide) (by decide)
  exact ⟨h1.1, h1.2.2.2.1, h1.2.2.2.2, h2⟩

end CodeDrop
